import Mathlib

/-!
Verification of the VoidWarp LAN file-transfer core against its specification.

The Rust sources are shallowly embedded: bytes are `Nat` values below 256,
byte strings are `List Nat`, machine integers are `Nat` with explicit
`% 2 ^ w` where overflow matters, fallible code returns `Option`, and the
stateful writer/receiver loops become explicit state-passing functions.
-/

namespace VoidWarp

/-! ## Big-endian integer encoding (`to_be_bytes` / `from_be_bytes`) -/

/-- Big-endian two-byte encoding of a `u16` value (`u16::to_be_bytes`).
Values at or above `2 ^ 16` are truncated modulo `2 ^ 16`, matching the
Rust `u16` type. -/
def u16be (n : Nat) : List Nat := [n / 256 % 256, n % 256]

/-- Big-endian four-byte encoding of a `u32` value (`u32::to_be_bytes`). -/
def u32be (n : Nat) : List Nat := u16be (n / 2 ^ 16) ++ u16be (n % 2 ^ 16)

/-- Big-endian eight-byte encoding of a `u64` value (`u64::to_be_bytes`). -/
def u64be (n : Nat) : List Nat := u32be (n / 2 ^ 32) ++ u32be (n % 2 ^ 32)

/-- Big-endian value of a byte list (`uN::from_be_bytes`). -/
def beVal (bs : List Nat) : Nat := bs.foldl (fun a b => a * 256 + b) 0

theorem beVal_foldl_shift (ys : List Nat) (a : Nat) :
    ys.foldl (fun x b => x * 256 + b) a = a * 256 ^ ys.length + beVal ys := by
  unfold beVal
  induction ys generalizing a with
  | nil => simp
  | cons z zs ih =>
    simp only [List.foldl_cons, List.length_cons]
    rw [ih (a * 256 + z), ih (0 * 256 + z)]
    ring

theorem beVal_append (xs ys : List Nat) :
    beVal (xs ++ ys) = beVal xs * 256 ^ ys.length + beVal ys := by
  unfold beVal
  rw [List.foldl_append]
  exact beVal_foldl_shift ys _

theorem beVal_u16be (n : Nat) : beVal (u16be n) = n % 2 ^ 16 := by
  unfold u16be beVal
  simp only [List.foldl_cons, List.foldl_nil]
  omega

theorem u16be_length (n : Nat) : (u16be n).length = 2 := rfl

theorem u32be_length (n : Nat) : (u32be n).length = 4 := rfl

theorem u64be_length (n : Nat) : (u64be n).length = 8 := rfl

theorem beVal_u32be (n : Nat) : beVal (u32be n) = n % 2 ^ 32 := by
  unfold u32be
  rw [beVal_append, beVal_u16be, beVal_u16be, u16be_length]
  have h1 : n % 2 ^ 32 % 2 ^ 16 = n % 2 ^ 16 := Nat.mod_mod_of_dvd n (by norm_num)
  have h2 : n % 2 ^ 32 = n / 2 ^ 16 % 2 ^ 16 * 2 ^ 16 + n % 2 ^ 16 := by omega
  omega

theorem beVal_u64be (n : Nat) : beVal (u64be n) = n % 2 ^ 64 := by
  unfold u64be
  rw [beVal_append, beVal_u32be, beVal_u32be, u32be_length]
  have h1 : n % 2 ^ 64 % 2 ^ 32 = n % 2 ^ 32 := Nat.mod_mod_of_dvd n (by norm_num)
  have h2 : n % 2 ^ 64 = n / 2 ^ 32 % 2 ^ 32 * 2 ^ 32 + n % 2 ^ 32 := by omega
  omega

/-! ## Byte-stream readers (models of `read_exact` on a `Read` source) -/

/-- Read one byte from the stream (`read_exact` into a one-byte buffer);
returns the byte and the remaining stream, or `none` at end of stream. -/
def readByte : List Nat → Option (Nat × List Nat)
  | [] => none
  | b :: rest => some (b, rest)

/-- Read exactly `k` bytes from the stream (`read_exact` into a `k`-byte
buffer); `none` if fewer than `k` bytes remain. -/
def readN (k : Nat) (bs : List Nat) : Option (List Nat × List Nat) :=
  if k ≤ bs.length then some (bs.take k, bs.drop k) else none

theorem readByte_append (b : Nat) (xs rest : List Nat) :
    readByte ((b :: xs) ++ rest) = some (b, xs ++ rest) := rfl

theorem readN_append (k : Nat) (xs rest : List Nat) (h : xs.length = k) :
    readN k (xs ++ rest) = some (xs, rest) := by
  unfold readN
  rw [if_pos (by simp [h])]
  rw [List.take_append_of_le_length (by omega), List.drop_append_of_le_length (by omega)]
  simp [h]

/-! ## Wire protocol: `HandshakeRequest` (src/core/src/protocol.rs)

The copy of `protocol.rs` under `src/` is a stale revision without the
`TransferType`-aware handshake, yet `sender.rs` and `receiver.rs` both use
`crate::protocol::TransferType` and a six-argument `HandshakeRequest::new`
carrying a `transfer_type` field.  The `transfer_type` tail of the
encoding is therefore modelled from the spec; every other field follows
`write_to` / `read_from` in `src/core/src/protocol.rs` verbatim. -/

/-- `PROTOCOL_VERSION` from protocol.rs. -/
def PROTOCOL_VERSION : Nat := 1

/-- Modelled from the spec: the `TransferType` tagged variant
(`{ SingleFile, Folder }`), missing from the stale `protocol.rs` under
`src/` but used by `sender.rs` and `receiver.rs`. -/
inductive TransferType where
  | SingleFile
  | Folder
deriving DecidableEq, Repr

/-- Modelled from the spec: the on-wire byte of a `TransferType`
(`0=SingleFile, 1=Folder`). -/
def TransferType.toByte : TransferType → Nat
  | .SingleFile => 0
  | .Folder => 1

/-- Modelled from the spec: decoding the `transfer_type:u8` byte
(`0=SingleFile, 1=Folder`); any other byte fails the stream. -/
def TransferType.ofByte : Nat → Option TransferType
  | 0 => some .SingleFile
  | 1 => some .Folder
  | _ => none

/-- `HandshakeRequest`: strings are carried as their UTF-8 byte lists
(`String::as_bytes`); `from_utf8_lossy` on bytes produced from a valid
string is the identity, so the byte level is lossless. -/
structure HandshakeRequest where
  version : Nat
  sender_name : List Nat
  file_name : List Nat
  file_size : Nat
  chunk_size : Nat
  file_checksum : List Nat
  transfer_type : TransferType
deriving DecidableEq, Repr

/-- The body of `HandshakeRequest::write_to` exactly as it stands in the
stale `src/core/src/protocol.rs` (all fields up to and including the
checksum bytes, without the `transfer_type` tail). -/
def HandshakeRequest.write_to_base (h : HandshakeRequest) : List Nat :=
  let sender_len := min h.sender_name.length 255
  let fname_len := min h.file_name.length 65535
  let check_len := min h.file_checksum.length 255
  [h.version % 256]
    ++ [sender_len] ++ h.sender_name.take sender_len
    ++ u16be fname_len ++ h.file_name.take fname_len
    ++ u64be h.file_size ++ u32be h.chunk_size
    ++ [check_len] ++ h.file_checksum.take check_len

/-- `HandshakeRequest::write_to` of the current protocol: the fields of
the `src/` revision followed by the `transfer_type:u8` byte.  The tail is
modelled from the spec (see the section comment). -/
def HandshakeRequest.write_to (h : HandshakeRequest) : List Nat :=
  let sender_len := min h.sender_name.length 255
  let fname_len := min h.file_name.length 65535
  let check_len := min h.file_checksum.length 255
  [h.version % 256]
    ++ [sender_len] ++ h.sender_name.take sender_len
    ++ u16be fname_len ++ h.file_name.take fname_len
    ++ u64be h.file_size ++ u32be h.chunk_size
    ++ [check_len] ++ h.file_checksum.take check_len
    ++ [h.transfer_type.toByte]

/-- `HandshakeRequest::read_from` over a byte stream; returns the decoded
request and the unconsumed remainder of the stream.  Field order and the
version check follow `protocol.rs`; the final `transfer_type` byte is
modelled from the spec. -/
def HandshakeRequest.read_from (bs : List Nat) :
    Option (HandshakeRequest × List Nat) := do
  let (version, bs) ← readByte bs
  if version ≠ PROTOCOL_VERSION then none else do
    let (sender_len, bs) ← readByte bs
    let (sender_name, bs) ← readN sender_len bs
    let (fname_len_bytes, bs) ← readN 2 bs
    let (file_name, bs) ← readN (beVal fname_len_bytes) bs
    let (size_bytes, bs) ← readN 8 bs
    let (chunk_bytes, bs) ← readN 4 bs
    let (check_len, bs) ← readByte bs
    let (file_checksum, bs) ← readN check_len bs
    let (tt_byte, bs) ← readByte bs
    let tt ← TransferType.ofByte tt_byte
    some (⟨version, sender_name, file_name, beVal size_bytes,
           beVal chunk_bytes, file_checksum, tt⟩, bs)

theorem TransferType.ofByte_toByte (tt : TransferType) :
    TransferType.ofByte tt.toByte = some tt := by
  cases tt <;> rfl

/-- C1: the on-wire `HandshakeRequest` encoding consists of the fields
written by the `src/` revision of `write_to` (version, sender name with
`u8` length, file name with `u16` length, `file_size:u64`,
`chunk_size:u32`, checksum with `u8` length) followed by a final
`transfer_type:u8` byte that is `0` for `SingleFile` and `1` for
`Folder`; every byte sequence produced by `write_to` ends with the
transfer-type byte after the checksum bytes. -/
theorem handshake_encoding_ends_with_transfer_type (h : HandshakeRequest) :
    h.write_to = h.write_to_base ++ [h.transfer_type.toByte]
      ∧ h.write_to.getLast? = some h.transfer_type.toByte
      ∧ TransferType.toByte .SingleFile = 0
      ∧ TransferType.toByte .Folder = 1 := by
  have hbase : h.write_to = h.write_to_base ++ [h.transfer_type.toByte] := by
    simp [HandshakeRequest.write_to, HandshakeRequest.write_to_base]
  refine ⟨hbase, ?_, rfl, rfl⟩
  rw [hbase]
  simp

/-- C4: for every `HandshakeRequest` with version 1 whose sender name and
checksum are at most 255 bytes and whose file name is at most 65535
bytes, decoding the exact byte sequence produced by `write_to` via
`read_from` yields the original request in every field, leaving any
trailing stream bytes unconsumed. -/
theorem handshake_roundtrip (h : HandshakeRequest) (rest : List Nat)
    (hv : h.version = 1)
    (hs : h.sender_name.length ≤ 255)
    (hf : h.file_name.length ≤ 65535)
    (hc : h.file_checksum.length ≤ 255)
    (hsz : h.file_size < 2 ^ 64)
    (hck : h.chunk_size < 2 ^ 32) :
    HandshakeRequest.read_from (h.write_to ++ rest) = some (h, rest) := by
  obtain ⟨v, sn, fn, fs, cs, ck, tt⟩ := h
  simp only at hv hs hf hc hsz hck
  subst hv
  have e1 : fn.length % 2 ^ 16 = fn.length := Nat.mod_eq_of_lt (by omega)
  have e2 : fs % 2 ^ 64 = fs := Nat.mod_eq_of_lt hsz
  have e3 : cs % 2 ^ 32 = cs := Nat.mod_eq_of_lt hck
  simp only [HandshakeRequest.write_to, Nat.min_eq_left hs, Nat.min_eq_left hf,
    Nat.min_eq_left hc, List.take_length, List.append_assoc, List.cons_append,
    List.nil_append]
  simp only [HandshakeRequest.read_from, readByte, PROTOCOL_VERSION]
  norm_num
  simp only [readN_append _ sn _ rfl, Option.bind_eq_bind, Option.some_bind,
    readN_append 2 (u16be fn.length) _ (u16be_length _), beVal_u16be, e1,
    readN_append _ fn _ rfl,
    readN_append 8 (u64be fs) _ (u64be_length _), beVal_u64be, e2,
    readN_append 4 (u32be cs) _ (u32be_length _), beVal_u32be, e3,
    readByte, readN_append _ ck _ rfl, TransferType.ofByte_toByte]

/-- C4 witness: the round-trip theorem applied at a concrete request. -/
theorem handshake_roundtrip_witness :
    HandshakeRequest.read_from
        (HandshakeRequest.write_to
          ⟨1, [86, 87], [102, 46, 98, 105, 110], 70, 1048576, [97, 98], .Folder⟩
          ++ [9, 9]) =
      some (⟨1, [86, 87], [102, 46, 98, 105, 110], 70, 1048576, [97, 98], .Folder⟩,
            [9, 9]) :=
  handshake_roundtrip
    ⟨1, [86, 87], [102, 46, 98, 105, 110], 70, 1048576, [97, 98], .Folder⟩
    [9, 9] rfl (by decide) (by decide) (by decide) (by decide) (by decide)

/-! ## Receiver resume policy (receiver.rs `accept_transfer`, io_utils.rs
`ReceiverWriter::resume_single`) -/

/-- `ReceiverState` from receiver.rs. -/
inductive ReceiverState where
  | Idle
  | Listening
  | AwaitingAccept
  | Receiving
  | Completed
  | Error
deriving DecidableEq, Repr

/-- Which `ReceiverWriter` constructor `accept_transfer` chooses before
the chunk loop: `ReceiverWriter::new_folder`,
`ReceiverWriter::resume_single(path, valid_len)`, or
`ReceiverWriter::new_single`. -/
inductive WriterPlan where
  | folderFresh
  | resumeSingle (valid_len : Nat)
  | freshSingle
deriving DecidableEq, Repr

/-- The values `accept_transfer` sets up before any chunk is read:
the writer choice, `start_chunk_index`, and the initial `received`
counter. -/
structure ResumeSetup where
  plan : WriterPlan
  start_chunk_index : Nat
  received : Nat
deriving DecidableEq, Repr

/-- The resume decision of `FileReceiverServer::accept_transfer`
(receiver.rs): folders always start fresh; an existing single file with
`0 < current_len < file_size` and `chunk_size > 0` resumes at
`valid_chunks = current_len / chunk_size` with the writer opened by
`resume_single(path, valid_chunks * chunk_size)`; otherwise the file is
overwritten from zero. -/
def acceptResumeSetup (tt : TransferType) (path_exists : Bool)
    (current_len file_size chunk_size : Nat) : ResumeSetup :=
  if tt = .Folder then ⟨.folderFresh, 0, 0⟩
  else if path_exists then
    if 0 < current_len ∧ current_len < file_size ∧ 0 < chunk_size then
      let valid_chunks := current_len / chunk_size
      let valid_len := valid_chunks * chunk_size
      ⟨.resumeSingle valid_len, valid_chunks, valid_len⟩
    else ⟨.freshSingle, 0, 0⟩
  else ⟨.freshSingle, 0, 0⟩

/-- Content of the destination file after
`ReceiverWriter::resume_single(path, len)` runs `file.set_len(len)`:
the existing bytes truncated to `len` (here `len` never exceeds the
existing length). -/
def resume_single_content (existing : List Nat) (len : Nat) : List Nat :=
  existing.take len

/-- C3: for a single-file `accept_transfer` with an existing destination
of length `L`, `0 < L < file_size`, and positive chunk size `C`, the
receiver resumes at chunk index `⌊L / C⌋`, the writer truncates the file
to exactly `⌊L / C⌋ * C` bytes before any data byte is written,
`bytes_received` starts at that truncated length, and
`⌊L / C⌋ * C ≤ L`. -/
theorem accept_transfer_resume (existing : List Nat) (L file_size C : Nat)
    (hlen : existing.length = L) (h0 : 0 < L) (hL : L < file_size)
    (hC : 0 < C) :
    acceptResumeSetup .SingleFile true L file_size C
        = ⟨.resumeSingle (L / C * C), L / C, L / C * C⟩
      ∧ resume_single_content existing (L / C * C)
          = existing.take (L / C * C)
      ∧ (resume_single_content existing (L / C * C)).length = L / C * C
      ∧ L / C * C ≤ L := by
  have hle : L / C * C ≤ L := Nat.div_mul_le_self L C
  refine ⟨?_, rfl, ?_, hle⟩
  · simp [acceptResumeSetup, h0, hL, hC]
  · simp [resume_single_content, hlen]
    omega

/-- C3 witness: resume with an existing five-byte file, chunk size two
and announced size ten truncates to four bytes and resumes at chunk 2. -/
theorem accept_transfer_resume_witness :
    acceptResumeSetup .SingleFile true 5 10 2
        = ⟨.resumeSingle (5 / 2 * 2), 5 / 2, 5 / 2 * 2⟩
      ∧ resume_single_content [10, 20, 30, 40, 50] (5 / 2 * 2)
          = [10, 20, 30, 40, 50].take (5 / 2 * 2)
      ∧ (resume_single_content [10, 20, 30, 40, 50] (5 / 2 * 2)).length
          = 5 / 2 * 2
      ∧ 5 / 2 * 2 ≤ 5 :=
  accept_transfer_resume [10, 20, 30, 40, 50] 5 10 2 rfl (by decide)
    (by decide) (by decide)

/-! ## Sender chunk retry loop (sender.rs `send_over_stream`,
`wait_for_ack`) -/

/-- `MAX_RETRIES` from sender.rs. -/
def MAX_RETRIES : Nat := 3

/-- The `TransferResult` values the chunk loop can produce, plus
`starved` for an event trace that ends while the loop still runs. -/
inductive ChunkOutcome where
  | acked
  | ioError
  | checksumMismatch
  | timeout
  | starved
deriving DecidableEq, Repr

/-- Observable outcome of one attempt at the current chunk: `send_chunk`
failed with a network error, `wait_for_ack`'s 9-byte read failed
(timeout or error), or an ACK frame with the given index and status
arrived. -/
inductive AckEvent where
  | sendErr
  | ackErr
  | ack (idx status : Nat)
deriving DecidableEq, Repr

/-- `wait_for_ack` (sender.rs): an ACK is accepted only when its index
matches the expected chunk index and its status byte is 0; an
index-mismatched ACK or a nonzero status yields `Ok(false)`. -/
def ackAccepted (expected idx status : Nat) : Bool :=
  idx == expected && status == 0

/-- The inner per-chunk loop of `send_over_stream` (sender.rs): on a
send error, a rejected ACK, or an ACK read error the same chunk is
retried after incrementing `retries`; once `retries` reaches
`MAX_RETRIES` the loop returns `IoError`, `ChecksumMismatch`, or
`Timeout` according to the failing cause.  Returns the outcome and the
unconsumed events. -/
def chunkSendLoop (expected retries : Nat) :
    List AckEvent → ChunkOutcome × List AckEvent
  | [] => (.starved, [])
  | e :: rest =>
    match e with
    | .sendErr =>
      if retries + 1 ≥ MAX_RETRIES then (.ioError, rest)
      else chunkSendLoop expected (retries + 1) rest
    | .ackErr =>
      if retries + 1 ≥ MAX_RETRIES then (.timeout, rest)
      else chunkSendLoop expected (retries + 1) rest
    | .ack idx status =>
      if ackAccepted expected idx status then (.acked, rest)
      else if retries + 1 ≥ MAX_RETRIES then (.checksumMismatch, rest)
      else chunkSendLoop expected (retries + 1) rest

/-- An attempt outcome that does not acknowledge the current chunk. -/
def isFailure (expected : Nat) : AckEvent → Bool
  | .sendErr => true
  | .ackErr => true
  | .ack idx status => !ackAccepted expected idx status

/-- The `TransferResult` produced when retries are exhausted, by the
cause of the final failure. -/
def exhaustedResult : AckEvent → ChunkOutcome
  | .sendErr => .ioError
  | .ackErr => .timeout
  | .ack _ _ => .checksumMismatch

theorem chunkSendLoop_consumes (expected : Nat) :
    ∀ (evs : List AckEvent) (retries : Nat), retries < MAX_RETRIES →
      evs.length ≤ (chunkSendLoop expected retries evs).2.length
        + (MAX_RETRIES - retries) := by
  have hM : MAX_RETRIES = 3 := rfl
  intro evs
  induction evs with
  | nil => intro retries _; simp [chunkSendLoop]
  | cons e rest ih =>
    intro retries hlt
    cases e with
    | sendErr =>
      by_cases hr : retries + 1 ≥ MAX_RETRIES
      · simp only [chunkSendLoop, if_pos hr, List.length_cons]
        omega
      · simp only [chunkSendLoop, if_neg hr, List.length_cons]
        have := ih (retries + 1) (by omega)
        omega
    | ackErr =>
      by_cases hr : retries + 1 ≥ MAX_RETRIES
      · simp only [chunkSendLoop, if_pos hr, List.length_cons]
        omega
      · simp only [chunkSendLoop, if_neg hr, List.length_cons]
        have := ih (retries + 1) (by omega)
        omega
    | ack idx status =>
      by_cases ha : ackAccepted expected idx status
      · simp only [chunkSendLoop, if_pos ha, List.length_cons]
        omega
      · by_cases hr : retries + 1 ≥ MAX_RETRIES
        · simp only [chunkSendLoop, if_neg ha, if_pos hr, List.length_cons]
          omega
        · simp only [chunkSendLoop, if_neg ha, if_neg hr, List.length_cons]
          have := ih (retries + 1) (by omega)
          omega

theorem chunkSendLoop_fail_step (expected retries : Nat) (e : AckEvent)
    (rest : List AckEvent) (hf : isFailure expected e = true)
    (hr : retries + 1 < MAX_RETRIES) :
    chunkSendLoop expected retries (e :: rest)
      = chunkSendLoop expected (retries + 1) rest := by
  cases e with
  | sendErr => simp [chunkSendLoop, Nat.not_le.mpr hr]
  | ackErr => simp [chunkSendLoop, Nat.not_le.mpr hr]
  | ack idx status =>
    simp only [isFailure, Bool.not_eq_true'] at hf
    simp [chunkSendLoop, hf, Nat.not_le.mpr hr]

theorem chunkSendLoop_exhaust_step (expected retries : Nat) (e : AckEvent)
    (rest : List AckEvent) (hf : isFailure expected e = true)
    (hr : retries + 1 ≥ MAX_RETRIES) :
    chunkSendLoop expected retries (e :: rest) = (exhaustedResult e, rest) := by
  cases e with
  | sendErr => simp [chunkSendLoop, hr, exhaustedResult]
  | ackErr => simp [chunkSendLoop, hr, exhaustedResult]
  | ack idx status =>
    simp only [isFailure, Bool.not_eq_true'] at hf
    simp [chunkSendLoop, hf, hr, exhaustedResult]

theorem chunkSendLoop_ok_step (expected retries : Nat)
    (rest : List AckEvent) :
    chunkSendLoop expected retries (.ack expected 0 :: rest)
      = (.acked, rest) := by
  simp [chunkSendLoop, ackAccepted]

/-- C5: in the sender's chunk loop any failing attempt — a send error,
an ACK with wrong index or checksum-mismatch status, or an ACK read
error — causes the same chunk (same expected index) to be retried, at
most `MAX_RETRIES = 3` attempts are ever consumed, and on exhaustion
the loop returns `IoError` for a send failure, `ChecksumMismatch` for a
rejected ACK (wrong index or nonzero status), and `Timeout` for an ACK
read error, according to the final failure. -/
theorem sender_chunk_retry (expected i s : Nat) (e1 e2 e3 : AckEvent)
    (evs rest : List AckEvent)
    (h1 : isFailure expected e1 = true)
    (h2 : isFailure expected e2 = true)
    (h3 : isFailure expected e3 = true) :
    evs.length ≤ (chunkSendLoop expected 0 evs).2.length + MAX_RETRIES
      ∧ chunkSendLoop expected 0 (e1 :: .ack expected 0 :: rest)
          = (.acked, rest)
      ∧ chunkSendLoop expected 0 (e1 :: e2 :: .ack expected 0 :: rest)
          = (.acked, rest)
      ∧ chunkSendLoop expected 0 (e1 :: e2 :: e3 :: evs)
          = (exhaustedResult e3, evs)
      ∧ exhaustedResult .sendErr = .ioError
      ∧ exhaustedResult .ackErr = .timeout
      ∧ exhaustedResult (.ack i s) = .checksumMismatch := by
  have hm : (1 : Nat) < MAX_RETRIES := by decide
  have hm2 : (2 : Nat) < MAX_RETRIES := by decide
  have hm3 : (3 : Nat) ≥ MAX_RETRIES := by decide
  refine ⟨?_, ?_, ?_, ?_, rfl, rfl, rfl⟩
  · have := chunkSendLoop_consumes expected evs 0 (by decide)
    omega
  · rw [chunkSendLoop_fail_step expected 0 e1 _ h1 (by omega),
      chunkSendLoop_ok_step]
  · rw [chunkSendLoop_fail_step expected 0 e1 _ h1 (by omega),
      chunkSendLoop_fail_step expected 1 e2 _ h2 (by omega),
      chunkSendLoop_ok_step]
  · rw [chunkSendLoop_fail_step expected 0 e1 _ h1 (by omega),
      chunkSendLoop_fail_step expected 1 e2 _ h2 (by omega),
      chunkSendLoop_exhaust_step expected 2 e3 _ h3 (by omega)]

/-- C5 witness: the retry theorem at a concrete trace — a send error, a
wrong-index ACK, then an ACK read error for chunk 7. -/
theorem sender_chunk_retry_witness :
    [AckEvent.ackErr].length
        ≤ (chunkSendLoop 7 0 [AckEvent.ackErr]).2.length + MAX_RETRIES
      ∧ chunkSendLoop 7 0 [.sendErr, .ack 7 0, .ack 9 9] = (.acked, [.ack 9 9])
      ∧ chunkSendLoop 7 0 [.sendErr, .ack 8 0, .ack 7 0, .ack 9 9]
          = (.acked, [.ack 9 9])
      ∧ chunkSendLoop 7 0 [.sendErr, .ack 8 0, .ackErr, .ackErr]
          = (exhaustedResult .ackErr, [.ackErr])
      ∧ exhaustedResult .sendErr = .ioError
      ∧ exhaustedResult .ackErr = .timeout
      ∧ exhaustedResult (.ack 4 1) = .checksumMismatch :=
  sender_chunk_retry 7 4 1 .sendErr (.ack 8 0) .ackErr [.ackErr] [.ack 9 9]
    (by decide) (by decide) (by decide)

/-! ## Folder sender construction (sender.rs `new_folder`)

`ManifestItem` and `TransferManifest` are used by sender.rs (fields
`path`, `size`, `hash`, `items`, `total_size`) but their declarations
live in the `TransferType`-aware protocol.rs revision that is missing
from `src/`; the structures are modelled from those uses and the spec.
Relative paths are represented as their slash-separated components. -/

/-- A manifest entry: relative path (as components), size, MD5 hex. -/
structure ManifestItem where
  path : List String
  size : Nat
  hash : List Nat
deriving DecidableEq, Repr

/-- The folder manifest serialized as JSON for the wire. -/
structure TransferManifest where
  items : List ManifestItem
  total_size : Nat
deriving DecidableEq, Repr

/-- `DEFAULT_CHUNK_SIZE` from sender.rs. -/
def DEFAULT_CHUNK_SIZE : Nat := 1024 * 1024

/-- The fields of `TcpFileSender` set by construction that the
handshake later uses. -/
structure SenderInit where
  file_size : Nat
  file_checksum : List Nat
  chunk_size : Nat
  transfer_type : TransferType
  manifest_bytes : List Nat
deriving Repr

/-- `TcpFileSender::new_folder` (sender.rs) after the filesystem scan:
given the scanned items (relative path, size, per-file hash), build the
manifest, serialize it (`jsonOf` abstracts `serde_json::to_string`),
frame it as `u32 len ++ bytes`, hash the manifest JSON bytes (`md5hex`
abstracts `calculate_chunk_checksum`), and report
`file_size = full_manifest_data.len() + total_content_size`. -/
def new_folder (jsonOf : TransferManifest → List Nat)
    (md5hex : List Nat → List Nat) (scanned : List ManifestItem) :
    SenderInit :=
  let total_content_size := scanned.foldl (fun acc it => acc + it.size) 0
  let manifest : TransferManifest := ⟨scanned, total_content_size⟩
  let manifest_bytes := jsonOf manifest
  let full_manifest_data := u32be manifest_bytes.length ++ manifest_bytes
  let manifest_hash := md5hex manifest_bytes
  { file_size := full_manifest_data.length + total_content_size,
    file_checksum := manifest_hash,
    chunk_size := DEFAULT_CHUNK_SIZE,
    transfer_type := .Folder,
    manifest_bytes := full_manifest_data }

theorem foldl_add_size (l : List ManifestItem) :
    ∀ a : Nat, l.foldl (fun acc it => acc + it.size) a
      = a + (l.map (fun it => it.size)).sum := by
  induction l with
  | nil => intro a; simp
  | cons it rest ih =>
    intro a
    simp only [List.foldl_cons, List.map_cons, List.sum_cons]
    rw [ih (a + it.size)]
    ring

/-- C7: for every folder sender, the `file_size` announced in the
handshake equals `4` (the manifest length prefix) plus the byte length
of the serialized manifest JSON plus the sum of the sizes of all
enumerated files, and the handshake checksum is the MD5 of the manifest
JSON bytes — not of the file contents (it equals `md5hex` applied to
the manifest bytes for *every* hashing function `md5hex`, so no file
content enters it). -/
theorem new_folder_handshake_size (jsonOf : TransferManifest → List Nat)
    (md5hex : List Nat → List Nat) (scanned : List ManifestItem) :
    (new_folder jsonOf md5hex scanned).file_size
        = 4 + (jsonOf ⟨scanned, (scanned.map (fun it => it.size)).sum⟩).length
          + (scanned.map (fun it => it.size)).sum
      ∧ (new_folder jsonOf md5hex scanned).file_checksum
          = md5hex (jsonOf ⟨scanned, (scanned.map (fun it => it.size)).sum⟩)
      ∧ (new_folder jsonOf md5hex scanned).transfer_type = .Folder := by
  have hsum := foldl_add_size scanned 0
  simp only [Nat.zero_add] at hsum
  refine ⟨?_, ?_, rfl⟩
  · simp only [new_folder, hsum, List.length_append, u32be_length]
  · simp only [new_folder, hsum]

/-! ## Receiver chunk verification (receiver.rs `accept_transfer` chunk
loop) -/

/-- One chunk frame as read off the socket: `index:u64`, the data
bytes, and the 16 raw MD5 bytes that follow them. -/
structure ChunkFrame where
  index : Nat
  data : List Nat
  checksum : List Nat
deriving DecidableEq, Repr

/-- Receiver-side progress: the `received` counter, the bytes committed
through the writer, and the ACKs written back (`(index, status)`). -/
structure RecvProgress where
  received : Nat
  committed : List Nat
  acks : List (Nat × Nat)
deriving DecidableEq, Repr

/-- One iteration of the receiver chunk loop (receiver.rs): compute the
MD5 over the data (`md5raw` abstracts `calculate_chunk_checksum`
converted to its 16 raw bytes) and compare with the frame's checksum
bytes; on mismatch reply `{index, 1}` and write nothing; on match write
the payload through the writer, advance `received`, and reply
`{index, 0}`. -/
def recvChunkStep (md5raw : List Nat → List Nat) (st : RecvProgress)
    (f : ChunkFrame) : RecvProgress :=
  if md5raw f.data ≠ f.checksum then
    { st with acks := st.acks ++ [(f.index, 1)] }
  else
    { received := st.received + f.data.length,
      committed := st.committed ++ f.data,
      acks := st.acks ++ [(f.index, 0)] }

/-- The receiver chunk loop over a sequence of received frames. -/
def recvChunks (md5raw : List Nat → List Nat) (st : RecvProgress)
    (frames : List ChunkFrame) : RecvProgress :=
  frames.foldl (recvChunkStep md5raw) st

theorem recvChunks_committed (md5raw : List Nat → List Nat) :
    ∀ (frames : List ChunkFrame) (st : RecvProgress),
      (recvChunks md5raw st frames).committed
        = st.committed
          ++ ((frames.filter (fun g => md5raw g.data == g.checksum)).map
              (fun g => g.data)).flatten := by
  intro frames
  induction frames with
  | nil => intro st; simp [recvChunks]
  | cons f rest ih =>
    intro st
    by_cases hf : md5raw f.data = f.checksum
    · simp only [recvChunks, List.foldl_cons] at ih ⊢
      rw [ih]
      simp [recvChunkStep, hf, List.filter_cons]
    · simp only [recvChunks, List.foldl_cons] at ih ⊢
      rw [ih]
      simp [recvChunkStep, hf, List.filter_cons]

/-- C9: a received chunk frame whose computed MD5 does not equal its 16
checksum bytes is never written through the writer and never advances
`received`; the receiver replies `{index, 1}` and continues, and over
any sequence of frames the committed output consists exactly of the
data of the verified frames, so a mismatched chunk is never committed
at any point of the transfer. -/
theorem receiver_mismatch_never_committed (md5raw : List Nat → List Nat)
    (st : RecvProgress) (f : ChunkFrame) (frames : List ChunkFrame)
    (hf : md5raw f.data ≠ f.checksum) :
    (recvChunkStep md5raw st f).committed = st.committed
      ∧ (recvChunkStep md5raw st f).received = st.received
      ∧ (recvChunkStep md5raw st f).acks = st.acks ++ [(f.index, 1)]
      ∧ (recvChunks md5raw st frames).committed
          = st.committed
            ++ ((frames.filter (fun g => md5raw g.data == g.checksum)).map
                (fun g => g.data)).flatten := by
  refine ⟨?_, ?_, ?_, recvChunks_committed md5raw frames st⟩
    <;> simp [recvChunkStep, hf]

/-- C9 witness: a mismatching frame under a concrete hash function. -/
theorem receiver_mismatch_never_committed_witness :
    ((recvChunkStep (fun _ => List.replicate 16 0) ⟨3, [7], [(0, 0)]⟩
        ⟨1, [5], List.replicate 16 2⟩).committed = [7]
      ∧ (recvChunkStep (fun _ => List.replicate 16 0) ⟨3, [7], [(0, 0)]⟩
          ⟨1, [5], List.replicate 16 2⟩).received = 3
      ∧ (recvChunkStep (fun _ => List.replicate 16 0) ⟨3, [7], [(0, 0)]⟩
          ⟨1, [5], List.replicate 16 2⟩).acks = [(0, 0)] ++ [(1, 1)]
      ∧ (recvChunks (fun _ => List.replicate 16 0) ⟨3, [7], [(0, 0)]⟩
          []).committed
          = [7] ++ (([] : List ChunkFrame).map (fun g => g.data)).flatten) := by
  have h := receiver_mismatch_never_committed (fun _ => List.replicate 16 0)
    ⟨3, [7], [(0, 0)]⟩ ⟨1, [5], List.replicate 16 2⟩ [] (by decide)
  simpa using h

/-! ## Final checksum comparison (receiver.rs final verification,
checksum.rs `verify_file_checksum`) -/

/-- One hex digit in the lowercase alphabet used by
`format!("\x7b:x\x7d", digest)` (ASCII codes). -/
def toLowerHexDigit (n : Nat) : Nat := if n < 10 then 48 + n else 87 + n

/-- Lowercase hex rendering of a byte list — the form produced by
`calculate_file_checksum` / `calculate_chunk_checksum`. -/
def hexLower (bs : List Nat) : List Nat :=
  (bs.map (fun b => [toLowerHexDigit (b / 16 % 16), toLowerHexDigit (b % 16)])).flatten

/-- ASCII lowercase folding of one code point, as used by
`eq_ignore_ascii_case`. -/
def asciiToLower (c : Nat) : Nat := if 65 ≤ c ∧ c ≤ 90 then c + 32 else c

/-- ASCII uppercase folding of one code point. -/
def asciiToUpper (c : Nat) : Nat := if 97 ≤ c ∧ c ≤ 122 then c - 32 else c

/-- `str::eq_ignore_ascii_case`, the comparison inside
`verify_file_checksum` (checksum.rs). -/
def eqIgnoreAsciiCase (a b : List Nat) : Bool :=
  a.map asciiToLower == b.map asciiToLower

/-- The receiver's final verification comparison (receiver.rs):
`final_checksum == info.file_checksum`, exact byte equality. -/
def receiverFinalOk (final expected : List Nat) : Bool := final == expected

/-- The final verdict byte the receiver writes: `0x01` on match, `0x00`
on mismatch. -/
def finalVerdictByte (ok : Bool) : Nat := if ok then 1 else 0

/-- The receiver state after final verification: `Completed` on match,
`Error` on mismatch. -/
def receiverFinalState (ok : Bool) : ReceiverState :=
  if ok then .Completed else .Error

/-- C10: the receiver's final verification uses exact case-sensitive
equality while `verify_file_checksum` compares case-insensitively;
for a transfer whose handshake carries the uppercase-hex rendering of
the correct content digest (here the 16-byte digest `0xAB…AB`), the
recomputed lowercase-hex checksum fails the receiver's exact
comparison — verdict byte `0x00` and state `Error` — even though the
checksum module's case-insensitive comparison accepts it. -/
theorem final_verification_case_sensitivity :
    receiverFinalOk (hexLower (List.replicate 16 171))
        ((hexLower (List.replicate 16 171)).map asciiToUpper) = false
      ∧ finalVerdictByte (receiverFinalOk (hexLower (List.replicate 16 171))
          ((hexLower (List.replicate 16 171)).map asciiToUpper)) = 0
      ∧ receiverFinalState (receiverFinalOk (hexLower (List.replicate 16 171))
          ((hexLower (List.replicate 16 171)).map asciiToUpper))
          = .Error
      ∧ eqIgnoreAsciiCase (hexLower (List.replicate 16 171))
          ((hexLower (List.replicate 16 171)).map asciiToUpper) = true := by
  decide

/-! ## UDP discovery beacon (discovery/broadcast.rs) -/

/-- `BEACON_MAGIC` = `[0x56, 0x57]` ("VW"). -/
def BEACON_MAGIC : List Nat := [86, 87]

/-- `PACKET_TYPE_HELLO` = `0x03`. -/
def PACKET_TYPE_HELLO : Nat := 3

/-- A parsed Hello beacon (`HelloPeer` in broadcast.rs); the two strings
are carried as their UTF-8 byte lists. -/
structure HelloPeer where
  device_id : List Nat
  device_name : List Nat
  port : Nat
deriving DecidableEq, Repr

/-- `build_hello_packet` (broadcast.rs): `magic | type | port:u16 be |
id_len:u8 | id | name_len:u8 | name`, lengths clamped to 255. -/
def build_hello_packet (device_id device_name : List Nat) (port : Nat) :
    List Nat :=
  let id_len := min device_id.length 255
  let name_len := min device_name.length 255
  BEACON_MAGIC ++ [PACKET_TYPE_HELLO] ++ u16be port
    ++ [id_len] ++ device_id.take id_len
    ++ [name_len] ++ device_name.take name_len

/-- `parse_hello_packet` (broadcast.rs).  The source indexes into `buf`:
a length check `buf.len() < 6` (here: fewer than six leading elements),
the magic/type check on `buf[0..3]`, `port` from `buf[3..5]`,
`id_len = buf[5]`, the check `buf.len() < 6 + id_len + 1` (here:
`rest.length < id_len + 1` for `rest = buf[6..]`), the id bytes
`buf[6 .. 6+id_len]`, `name_len = buf[6+id_len]` (the head of
`rest.drop id_len`, whose emptiness mirrors `buf.get(i)?` returning
`None`), and the check `buf.len() < name_end` (here:
`rest2.length < name_len`). -/
def parse_hello_packet : List Nat → Option HelloPeer
  | m0 :: m1 :: t :: p1 :: p2 :: id_len :: rest =>
    if ¬(m0 = 86 ∧ m1 = 87 ∧ t = 3) then none
    else
      let port := beVal [p1, p2]
      if rest.length < id_len + 1 then none
      else
        let device_id := rest.take id_len
        match rest.drop id_len with
        | [] => none
        | name_len :: rest2 =>
          if rest2.length < name_len then none
          else some ⟨device_id, rest2.take name_len, port⟩
  | _ => none

/-! ## Discovery peer map (discovery/mod.rs, discovery/broadcast.rs)

Device ids and names are UTF-8 byte lists; IP addresses are
uninterpreted `Nat` identifiers.  The `HashMap<String, DiscoveredPeer>`
behind the `RwLock` is modelled as an association list whose `insert`
replaces an existing key in place or appends a new one. -/

/-- `DiscoveredPeer` from discovery/mod.rs. -/
structure DiscoveredPeer where
  device_id : List Nat
  device_name : List Nat
  addresses : List Nat
  port : Nat
deriving DecidableEq, Repr

/-- The process-wide peer map. -/
abbrev PeerMap : Type := List (List Nat × DiscoveredPeer)

/-- `HashMap::insert`: replace the value under an existing key,
otherwise add the entry. -/
def peerInsert (m : PeerMap) (k : List Nat) (v : DiscoveredPeer) : PeerMap :=
  if m.any (fun p => p.1 == k) then
    m.map (fun p => if p.1 == k then (k, v) else p)
  else m ++ [(k, v)]

/-- `DiscoveryManager::get_peers`: clone all values of the map. -/
def get_peers (m : PeerMap) : List DiscoveredPeer := m.map Prod.snd

/-- One beacon-listener iteration (`BeaconListener::start`,
broadcast.rs): parse the datagram; on a valid Hello whose id differs
from `our_device_id` (when one is known), upsert a peer whose single
address is the UDP source address; otherwise leave the map unchanged. -/
def beaconListenStep (our_device_id : Option (List Nat)) (buf : List Nat)
    (src : Nat) (m : PeerMap) : PeerMap :=
  match parse_hello_packet buf with
  | none => m
  | some hello =>
    match our_device_id with
    | some our =>
      if hello.device_id = our then m
      else peerInsert m hello.device_id
        ⟨hello.device_id, hello.device_name, [src], hello.port⟩
    | none =>
      peerInsert m hello.device_id
        ⟨hello.device_id, hello.device_name, [src], hello.port⟩

/-- One `ServiceResolved` event (discovery/mod.rs both browse loops):
skip the event when the `id` TXT property equals our registered service
id, otherwise upsert the resolved peer. -/
def mdnsResolvedStep (our_id : Option (List Nat)) (device_id device_name :
    List Nat) (addresses : List Nat) (port : Nat) (m : PeerMap) : PeerMap :=
  match our_id with
  | some our =>
    if device_id = our then m
    else peerInsert m device_id ⟨device_id, device_name, addresses, port⟩
  | none => peerInsert m device_id ⟨device_id, device_name, addresses, port⟩

/-- `DiscoveryManager::add_manual_peer` (discovery/mod.rs): upsert
unconditionally — there is no comparison against our own device id. -/
def add_manual_peer (m : PeerMap) (device_id device_name : List Nat)
    (ip : Nat) (port : Nat) : PeerMap :=
  peerInsert m device_id ⟨device_id, device_name, [ip], port⟩

theorem parse_build_hello (id name : List Nat) (port : Nat)
    (hid : id.length ≤ 255) (hname : name.length ≤ 255)
    (hport : port < 2 ^ 16) :
    parse_hello_packet (build_hello_packet id name port)
      = some ⟨id, name, port⟩ := by
  have hp : beVal [port / 256 % 256, port % 256] = port := by
    unfold beVal
    simp only [List.foldl_cons, List.foldl_nil]
    omega
  simp only [build_hello_packet, BEACON_MAGIC, PACKET_TYPE_HELLO, u16be,
    Nat.min_eq_left hid, Nat.min_eq_left hname, List.take_length,
    List.cons_append, List.nil_append, List.append_assoc]
  simp only [parse_hello_packet, hp]
  rw [if_neg (by simp), if_neg (by simp),
    List.take_left' rfl, List.drop_left' rfl]
  simp

/-- C8: `parse_hello_packet` returns `None` — and the beacon listener
leaves the peer map unchanged — for every packet shorter than the fixed
six-byte header, for every packet whose first three bytes are not
`0x56 0x57 0x03`, for every packet that ends before the `name_len` byte
(`buf.len() < 6 + id_len + 1`), and for every packet that ends before
`name_len` bytes of name; conversely parsing the packet built by
`build_hello_packet` from a device id and name of at most 255 bytes
recovers the same device id, device name, and port. -/
theorem hello_packet_validation (bufS bufN : List Nat)
    (m0 m1 t p1 p2 idl_b : Nat) (rest_b : List Nat)
    (idl_c q1 q2 : Nat) (rest_c : List Nat)
    (idl_d r1 r2 name_len : Nat) (rest_d rest2 : List Nat)
    (ourId : Option (List Nat)) (src : Nat) (pm : PeerMap)
    (id name : List Nat) (port : Nat)
    (hshort : bufS.length < 6)
    (hb : ¬(m0 = 86 ∧ m1 = 87 ∧ t = 3))
    (hc : rest_c.length < idl_c + 1)
    (hd1 : rest_d.drop idl_d = name_len :: rest2)
    (hd2 : rest2.length < name_len)
    (hn : parse_hello_packet bufN = none)
    (hid : id.length ≤ 255) (hname : name.length ≤ 255)
    (hport : port < 2 ^ 16) :
    parse_hello_packet bufS = none
      ∧ parse_hello_packet (m0 :: m1 :: t :: p1 :: p2 :: idl_b :: rest_b)
          = none
      ∧ parse_hello_packet (86 :: 87 :: 3 :: q1 :: q2 :: idl_c :: rest_c)
          = none
      ∧ parse_hello_packet (86 :: 87 :: 3 :: r1 :: r2 :: idl_d :: rest_d)
          = none
      ∧ beaconListenStep ourId bufN src pm = pm
      ∧ parse_hello_packet (build_hello_packet id name port)
          = some ⟨id, name, port⟩ := by
  refine ⟨?_, ?_, ?_, ?_, ?_, parse_build_hello id name port hid hname hport⟩
  · match bufS, hshort with
    | [], _ => rfl
    | [_], _ => rfl
    | [_, _], _ => rfl
    | [_, _, _], _ => rfl
    | [_, _, _, _], _ => rfl
    | [_, _, _, _, _], _ => rfl
    | _ :: _ :: _ :: _ :: _ :: _ :: _, h => simp at h; omega
  · simp [parse_hello_packet, hb]
  · simp [parse_hello_packet, hc]
  · have hlen : ¬(rest_d.length < idl_d + 1) := by
      have := congrArg List.length hd1
      simp only [List.length_drop, List.length_cons] at this
      omega
    simp only [parse_hello_packet, hd1, hlen, if_neg, if_false]
    simp [hd2]
  · simp [beaconListenStep, hn]

/-- C8 witness: the validation theorem at concrete packets — a one-byte
datagram, a wrong-magic packet, a packet cut before `name_len`, a
packet cut inside the name, and a round-trip of id `[5, 6]`, name
`[7]`, port 42424. -/
theorem hello_packet_validation_witness :
    parse_hello_packet [86] = none
      ∧ parse_hello_packet (0 :: 87 :: 3 :: 0 :: 80 :: 1 :: [65]) = none
      ∧ parse_hello_packet (86 :: 87 :: 3 :: 0 :: 80 :: 2 :: [65]) = none
      ∧ parse_hello_packet (86 :: 87 :: 3 :: 0 :: 80 :: 1 :: [65, 5, 66])
          = none
      ∧ beaconListenStep (some [1]) [86] 9 [] = []
      ∧ parse_hello_packet (build_hello_packet [5, 6] [7] 42424)
          = some ⟨[5, 6], [7], 42424⟩ :=
  hello_packet_validation [86] [86] 0 87 3 0 80 1 [65] 2 0 80 [65]
    1 0 80 5 [65, 5, 66] [66] (some [1]) 9 [] [5, 6] [7] 42424
    (by decide) (by decide) (by decide) (by decide) (by decide) (by decide)
    (by decide) (by decide) (by decide)

/-! ## Reachable peer-map states (C6) -/

/-- Peer-map states reachable by any interleaving of the three
mutation pipelines named in the spec: beacon Hello handling, mDNS
resolution handling (both knowing the engine's own id, as when the
service is registered), and `add_manual_peer` (which takes any id). -/
inductive DiscoReachable (selfId : List Nat) : PeerMap → Prop where
  | empty : DiscoReachable selfId []
  | beacon (buf : List Nat) (src : Nat) {m : PeerMap} :
      DiscoReachable selfId m →
      DiscoReachable selfId (beaconListenStep (some selfId) buf src m)
  | mdns (id nm : List Nat) (addrs : List Nat) (port : Nat) {m : PeerMap} :
      DiscoReachable selfId m →
      DiscoReachable selfId (mdnsResolvedStep (some selfId) id nm addrs port m)
  | manual (id nm : List Nat) (ip port : Nat) {m : PeerMap} :
      DiscoReachable selfId m →
      DiscoReachable selfId (add_manual_peer m id nm ip port)

/-- Peer-map states reachable when `add_manual_peer` is never called
with the engine's own device id (the beacon and mDNS pipelines are
unrestricted). -/
inductive DiscoReachableSafe (selfId : List Nat) : PeerMap → Prop where
  | empty : DiscoReachableSafe selfId []
  | beacon (buf : List Nat) (src : Nat) {m : PeerMap} :
      DiscoReachableSafe selfId m →
      DiscoReachableSafe selfId (beaconListenStep (some selfId) buf src m)
  | mdns (id nm : List Nat) (addrs : List Nat) (port : Nat) {m : PeerMap} :
      DiscoReachableSafe selfId m →
      DiscoReachableSafe selfId
        (mdnsResolvedStep (some selfId) id nm addrs port m)
  | manual (id nm : List Nat) (ip port : Nat) {m : PeerMap} :
      id ≠ selfId → DiscoReachableSafe selfId m →
      DiscoReachableSafe selfId (add_manual_peer m id nm ip port)

/-- C6 counterexample: `add_manual_peer` performs no self-check, so the
state after `add_manual_peer(self_id, …)` is reachable and `get_peers`
returns a peer whose `device_id` equals the engine's own id. -/
theorem get_peers_self_peer_counterexample :
    DiscoReachable [97] (add_manual_peer [] [97] [110] 4 42424)
      ∧ (get_peers (add_manual_peer [] [97] [110] 4 42424)).any
          (fun p => p.device_id == [97]) = true :=
  ⟨DiscoReachable.manual [97] [110] 4 42424 DiscoReachable.empty, by decide⟩

theorem peerInsert_pred (P : DiscoveredPeer → Prop) (m : PeerMap)
    (k : List Nat) (v : DiscoveredPeer)
    (hm : ∀ e ∈ m, P e.2) (hv : P v) :
    ∀ e ∈ peerInsert m k v, P e.2 := by
  intro e he
  unfold peerInsert at he
  by_cases hk : m.any (fun p => p.1 == k)
  · rw [if_pos hk] at he
    obtain ⟨e0, he0, heq⟩ := List.mem_map.mp he
    by_cases h0 : e0.1 == k
    · rw [if_pos h0] at heq
      rw [← heq]
      exact hv
    · rw [if_neg h0] at heq
      rw [← heq]
      exact hm e0 he0
  · rw [if_neg hk] at he
    rcases List.mem_append.mp he with h | h
    · exact hm e h
    · rw [List.mem_singleton.mp h]
      exact hv

/-- C6 amended: in every peer-map state reachable via beacon Hello
handling and mDNS resolution handling (both skipping the engine's own
id) and via `add_manual_peer` calls whose id differs from the engine's
own device id, `get_peers` returns no peer whose `device_id` equals the
engine's own id. -/
theorem get_peers_never_self (selfId : List Nat) (m : PeerMap)
    (h : DiscoReachableSafe selfId m) :
    (get_peers m).all (fun p => p.device_id != selfId) = true := by
  have inv : ∀ e ∈ m, e.2.device_id ≠ selfId := by
    induction h with
    | empty => intro e he; simp at he
    | beacon buf src hr ih =>
      intro e he
      revert he
      unfold beaconListenStep
      cases hph : parse_hello_packet buf with
      | none => exact fun he => ih e he
      | some hello =>
        dsimp only
        by_cases hsame : hello.device_id = selfId
        · rw [if_pos hsame]
          exact fun he => ih e he
        · rw [if_neg hsame]
          exact fun he => peerInsert_pred (fun v => v.device_id ≠ selfId)
            _ _ _ ih hsame e he
    | mdns id nm addrs port hr ih =>
      intro e he
      revert he
      unfold mdnsResolvedStep
      dsimp only
      by_cases hsame : id = selfId
      · rw [if_pos hsame]
        exact fun he => ih e he
      · rw [if_neg hsame]
        exact fun he => peerInsert_pred (fun v => v.device_id ≠ selfId)
          _ _ _ ih hsame e he
    | manual id nm ip port hne hr ih =>
      intro e he
      unfold add_manual_peer at he
      exact peerInsert_pred (fun v => v.device_id ≠ selfId)
        _ _ _ ih hne e he
  rw [List.all_eq_true]
  intro p hp
  obtain ⟨e, he, heq⟩ := List.mem_map.mp hp
  rw [bne_iff_ne]
  rw [← heq]
  exact inv e he

/-- C6 amended witness: a map reached by one foreign beacon Hello and
one foreign manual peer contains no self peer. -/
theorem get_peers_never_self_witness :
    (get_peers (add_manual_peer
        (beaconListenStep (some [97]) (build_hello_packet [98] [99] 7) 9 [])
        [100] [101] 3 5)).all
      (fun p => p.device_id != [97]) = true :=
  get_peers_never_self [97] _
    (DiscoReachableSafe.manual [100] [101] 3 5 (by decide)
      (DiscoReachableSafe.beacon (build_hello_packet [98] [99] 7) 9
        DiscoReachableSafe.empty))

/-! ## Folder stream writer (io_utils.rs `ReceiverWriter::Folder`,
`handle_folder_write`)

Paths are slash-separated component lists; the filesystem the writer
mutates is a list of created directories plus an association of file
paths to contents.  `File::create` truncates, writes append to the
created file, `fs::create_dir_all` creates a directory and all of its
ancestors. -/

/-- The filesystem state the folder writer mutates. -/
structure Fs where
  dirs : List (List String)
  files : List (List String × List Nat)
deriving DecidableEq, Repr

/-- Content of the file at `p`, if it has been created. -/
def Fs.lookupFile (fs : Fs) (p : List String) : Option (List Nat) :=
  (fs.files.find? (fun e => e.1 == p)).map Prod.snd

/-- `fs::create_dir_all`: the directory and every ancestor exist
afterwards. -/
def Fs.createDirAll (fs : Fs) (p : List String) : Fs :=
  { fs with dirs := fs.dirs ++ (List.range p.length).map (fun i => p.take (i + 1)) }

/-- `File::create`: create or truncate the file at `p`. -/
def Fs.createFile (fs : Fs) (p : List String) : Fs :=
  { fs with files := (p, []) :: fs.files.filter (fun e => !(e.1 == p)) }

/-- `write_all` on the open file at `p`: append the bytes. -/
def Fs.appendFile (fs : Fs) (p : List String) (data : List Nat) : Fs :=
  { fs with files := fs.files.map (fun e => if e.1 == p then (e.1, e.2 ++ data) else e) }

/-- `FolderWriterState` (io_utils.rs).  `ReadingManifestLen` carries the
bytes accumulated so far of the `[u8; 4]` buffer (`filled` is its
length); `WritingFiles` carries the manifest, `current_file_idx`,
`current_offset_in_file`, and whether `current_file` is `Some`. -/
inductive FolderWriterState where
  | ReadingManifestLen (buf : List Nat)
  | ReadingManifest (len : Nat) (buf : List Nat)
  | WritingFiles (manifest : TransferManifest) (current_file_idx : Nat)
      (current_offset_in_file : Nat) (current_open : Bool)
  | ErrorState (msg : String)
deriving Repr

/-- Termination stage of a writer state (the manifest states only ever
step towards `WritingFiles`). -/
def folderStage : FolderWriterState → Nat
  | .ReadingManifestLen _ => 2
  | .ReadingManifest _ _ => 1
  | .WritingFiles _ _ _ _ => 0
  | .ErrorState _ => 0

/-- Remaining items of a `WritingFiles` state. -/
def folderSub : FolderWriterState → Nat
  | .WritingFiles m idx _ _ => m.items.length - idx
  | _ => 0

/-- Directory creation on manifest completion (io_utils.rs):
`create_dir_all(base_path)` followed by `create_dir_all` of every
item's nonempty parent. -/
def manifestDirs (base : List String) (manifest : TransferManifest)
    (fs : Fs) : Fs :=
  manifest.items.foldl
    (fun acc it => if it.path.dropLast.isEmpty then acc
      else acc.createDirAll (base ++ it.path.dropLast))
    (fs.createDirAll base)

/-- `handle_folder_write` (io_utils.rs): one `write(buf)` call of the
`Folder` writer.  The internal loop returns `Ok(buf.len())` as soon as
`buf_idx` reaches `buf.len()` (here: the byte list is exhausted);
`ReadingManifestLen` accumulates 4 bytes and rejects a manifest length
over 100 MiB; `ReadingManifest` accumulates the JSON, records its MD5
(`md5hex` abstracts `calculate_chunk_checksum`), parses it (`parse`
abstracts `serde_json::from_slice`; `none` is the `InvalidData` error),
and creates the directories; `WritingFiles` creates empty files for
zero-size items reached while iterating, opens an item with
`File::create` on its first data byte, fills it up to `size`, and past
the last item silently consumes the rest of the call's buffer.  Errors
are `none`. -/
def handle_folder_write (parse : List Nat → Option TransferManifest)
    (md5hex : List Nat → List Nat) (base : List String) :
    FolderWriterState → Option (List Nat) → Fs → List Nat →
    Option (FolderWriterState × Option (List Nat) × Fs)
  | st, mh, fs, [] => some (st, mh, fs)
  | st, mh, fs, b :: tail =>
    match st with
    | .ReadingManifestLen lenbuf =>
      if lenbuf.length < 4 then
        let to_copy := min (4 - lenbuf.length) (b :: tail).length
        let lenbuf2 := lenbuf ++ (b :: tail).take to_copy
        let rest := (b :: tail).drop to_copy
        if lenbuf2.length = 4 then
          let len := beVal lenbuf2
          if len > 100 * 1024 * 1024 then none
          else handle_folder_write parse md5hex base
            (.ReadingManifest len []) mh fs rest
        else handle_folder_write parse md5hex base
          (.ReadingManifestLen lenbuf2) mh fs rest
      else none
    | .ReadingManifest len mbuf =>
      if mbuf.length = len then
        match parse mbuf with
        | none => none
        | some manifest =>
          handle_folder_write parse md5hex base
            (.WritingFiles manifest 0 0 false) (some (md5hex mbuf))
            (manifestDirs base manifest fs) (b :: tail)
      else if mbuf.length < len then
        let to_copy := min (len - mbuf.length) (b :: tail).length
        let mbuf2 := mbuf ++ (b :: tail).take to_copy
        let rest := (b :: tail).drop to_copy
        if mbuf2.length = len then
          match parse mbuf2 with
          | none => none
          | some manifest =>
            handle_folder_write parse md5hex base
              (.WritingFiles manifest 0 0 false) (some (md5hex mbuf2))
              (manifestDirs base manifest fs) rest
        else handle_folder_write parse md5hex base
          (.ReadingManifest len mbuf2) mh fs rest
      else none
    | .WritingFiles manifest idx offset openF =>
      if hix : idx < manifest.items.length then
        let remaining := manifest.items[idx].size - offset
        if remaining = 0 then
          let fs2 := if manifest.items[idx].size = 0 ∧ offset = 0 then
              fs.createFile (base ++ manifest.items[idx].path) else fs
          handle_folder_write parse md5hex base
            (.WritingFiles manifest (idx + 1) 0 false) mh fs2 (b :: tail)
        else
          let fs1 := if openF then fs
            else fs.createFile (base ++ manifest.items[idx].path)
          let to_write := min remaining (b :: tail).length
          let fs2 := fs1.appendFile (base ++ manifest.items[idx].path)
            ((b :: tail).take to_write)
          let rest := (b :: tail).drop to_write
          if offset + to_write = manifest.items[idx].size then
            handle_folder_write parse md5hex base
              (.WritingFiles manifest (idx + 1) 0 false) mh fs2 rest
          else
            handle_folder_write parse md5hex base
              (.WritingFiles manifest idx (offset + to_write) true) mh fs2 rest
      else some (st, mh, fs)
    | .ErrorState _ => none
  termination_by st _ _ bs => (bs.length, folderStage st, folderSub st)
  decreasing_by
    all_goals simp_wf
    all_goals try simp [Prod.lex_def, folderStage, folderSub]
    all_goals omega

/-- A two-item manifest whose last item has size zero: `a.txt` of one
byte, then `empty.dat` of zero bytes. -/
def demoManifest : TransferManifest :=
  ⟨[⟨["a.txt"], 1, []⟩, ⟨["empty.dat"], 0, []⟩], 1⟩

/-- Concrete stand-in for `serde_json::from_slice`: the one-byte
manifest document `[7]` parses to `demoManifest`. -/
def demoParse : List Nat → Option TransferManifest :=
  fun bs => if bs = [7] then some demoManifest else none

/-- Concrete stand-in hash function. -/
def demoMd5 : List Nat → List Nat := fun _ => [0]

/-- A fresh `Folder` writer (`ReceiverWriter::new_folder`) consuming
its complete stream in one write call: 4-byte manifest length `1`, the
manifest byte `7`, and the single data byte of `a.txt` — end of stream,
since the zero-size `empty.dat` contributes no bytes. -/
def demoRun : Option (FolderWriterState × Option (List Nat) × Fs) :=
  handle_folder_write demoParse demoMd5 ["recv"]
    (.ReadingManifestLen []) none ⟨[], []⟩ [0, 0, 0, 1, 7, 65]

/-- The same stream with the zero-size item first
(`empty.dat` then `a.txt`): manifest byte `8`. -/
def demoManifestZeroFirst : TransferManifest :=
  ⟨[⟨["empty.dat"], 0, []⟩, ⟨["a.txt"], 1, []⟩], 1⟩

/-- Parse stand-in for the zero-item-first manifest. -/
def demoParseZeroFirst : List Nat → Option TransferManifest :=
  fun bs => if bs = [8] then some demoManifestZeroFirst else none

/-- Run of the zero-item-first stream to end-of-stream. -/
def demoRunZeroFirst : Option (FolderWriterState × Option (List Nat) × Fs) :=
  handle_folder_write demoParseZeroFirst demoMd5 ["recv"]
    (.ReadingManifestLen []) none ⟨[], []⟩ [0, 0, 0, 1, 8, 65]

/-- C2 evaluation: a folder transfer driven to end-of-stream whose last
manifest item has size zero leaves that item uncreated — the write loop
returns when the call's buffer is exhausted, before iterating to the
final zero-size item, and end-of-stream triggers no further write.  The
writer stops at `current_file_idx = 1` with `a.txt` written and
`empty.dat` absent from the filesystem; by contrast, a zero-size item
that is *not* last is created as an empty file. -/
theorem folder_writer_trailing_zero_item_missing :
    (demoRun.map (fun r => r.2.2.lookupFile ["recv", "a.txt"])
        = some (some [65]))
      ∧ (demoRun.map (fun r => r.2.2.lookupFile ["recv", "empty.dat"])
          = some none)
      ∧ (demoRun.map (fun r => folderSub r.1) = some 1)
      ∧ (demoRunZeroFirst.map (fun r => r.2.2.lookupFile ["recv", "empty.dat"])
          = some (some []))
      ∧ (demoRunZeroFirst.map (fun r => r.2.2.lookupFile ["recv", "a.txt"])
          = some (some [65])) := by
  have h1 : demoRun = some (.WritingFiles demoManifest 1 0 false, some [0],
      ⟨[["recv"]], [(["recv", "a.txt"], [65])]⟩) := by
    simp [demoRun, handle_folder_write, demoParse, demoManifest, demoMd5,
      manifestDirs, Fs.createDirAll, Fs.createFile, Fs.appendFile, beVal,
      List.range_succ]
  have h2 : demoRunZeroFirst = some (.WritingFiles demoManifestZeroFirst 2 0
        false, some [0],
      ⟨[["recv"]], [(["recv", "a.txt"], [65]), (["recv", "empty.dat"], [])]⟩) := by
    simp [demoRunZeroFirst, handle_folder_write, demoParseZeroFirst,
      demoManifestZeroFirst, demoMd5, manifestDirs, Fs.createDirAll,
      Fs.createFile, Fs.appendFile, beVal, List.range_succ]
  rw [h1, h2]
  simp [Fs.lookupFile, folderSub, demoManifest]

end VoidWarp
